import Mathlib

/-!
Shallow embedding of the temporal-synchronization core of
`src/f1_driver_tracker.py` (an F1 telemetry replay script), together with
proofs of the specified properties.  Machine floats are modelled as real
numbers (`ℝ`); exact quantities that the program stores as integers or
pandas Timedeltas (lap times, raw sample timestamps) are modelled as
rationals (`ℚ`) so that concrete instances can be evaluated.
-/

namespace F1

/-- Configuration constant `FPS = 90` (source line 38). -/
def FPS : ℕ := 90

/-- Configuration constant `NUM_DRIVERS = 10` (source line 35). -/
def NUM_DRIVERS : ℕ := 10

/-! ## Shared timeline: `times = np.arange(0, total_seconds, 1/FPS)` -/

/-- Model of `np.arange(start, stop, step)` for a positive `step`:
the arithmetic progression `start + i * step` with
`ceil((stop - start) / step)` elements (the count numpy uses). -/
noncomputable def np_arange (start stop step : ℝ) : List ℝ :=
  (List.range ⌈(stop - start) / step⌉₊).map (fun i : ℕ => start + (i : ℝ) * step)

/-- The shared timeline built at load time (source line 101):
`times = np.arange(0, total_seconds, 1/FPS)`. -/
noncomputable def times (total_seconds : ℝ) : List ℝ :=
  np_arange 0 total_seconds (1 / (FPS : ℝ))

/-! ## Resampler: `np.interp` and `interpolate_telemetry` (source lines 78-83) -/

/-- Model of `np.interp(t, xp, fp)` for a single query point `t`, with the
nonempty sample list given as a head pair and a tail list.  Mirrors numpy:
clamp to `fp[0]` left of the range, to `fp[-1]` right of the range, and
piecewise-linearly interpolate inside. -/
noncomputable def np_interp (t : ℝ) : ℝ × ℝ → List (ℝ × ℝ) → ℝ
  | p, [] => p.2
  | p, q :: l =>
    if t ≤ p.1 then p.2
    else if t ≤ q.1 then p.2 + (q.2 - p.2) * ((t - p.1) / (q.1 - p.1))
    else np_interp t q l

/-- One raw telemetry sample: elapsed time (a pandas Timedelta, exact, hence
`ℚ`) and the `X`, `Y`, `Speed` channels (floats, hence `ℝ`). -/
structure TelemetryRow where
  time : ℚ
  x : ℝ
  y : ℝ
  speed : ℝ

/-- Model of the nested `interpolate_telemetry(telemetry, time_index)`
(source lines 78-83): resample the `X`, `Y` and `Speed` channels of one
competitor at every timestamp of `time_index` with `np.interp`. -/
noncomputable def interpolate_telemetry : List TelemetryRow → List ℝ → List ℝ × List ℝ × List ℝ
  | [], _ => ([], [], [])
  | r :: rs, time_index =>
    ((time_index.map fun t =>
        np_interp t ((r.time : ℝ), r.x) (rs.map fun s => ((s.time : ℝ), s.x))),
     (time_index.map fun t =>
        np_interp t ((r.time : ℝ), r.y) (rs.map fun s => ((s.time : ℝ), s.y))),
     (time_index.map fun t =>
        np_interp t ((r.time : ℝ), r.speed) (rs.map fun s => ((s.time : ℝ), s.speed))))

/-! ## Distance accumulator (source lines 117-122) -/

/-- Value of `cumulative_distances[i]` as computed by the loop
`for i in range(1, len(x_interp)): cumulative_distances[i] =
cumulative_distances[i-1] + np.sqrt(dx**2 + dy**2)` with
`cumulative_distances[0] = 0` (from `np.zeros`). -/
noncomputable def cum_val (xs ys : List ℝ) : ℕ → ℝ
  | 0 => 0
  | i + 1 =>
    cum_val xs ys i +
      Real.sqrt ((xs.getD (i + 1) 0 - xs.getD i 0) ^ 2 +
                 (ys.getD (i + 1) 0 - ys.getD i 0) ^ 2)

/-- The pre-calculated cumulative-distance array (source lines 118-122):
an array of length `len(x_interp)` whose `i`-th entry is `cum_val i`. -/
noncomputable def cumulative_distances (xs ys : List ℝ) : List ℝ :=
  (List.range xs.length).map (cum_val xs ys)

/-! ## Load and synchronize (source lines 54-143) -/

/-- One row of the session lap table: driver, team, `LapTime` (`none`
models a pandas NaT, filtered out by `laps['LapTime'].notna()`), and the
lap number.  Lap times are pandas Timedeltas, exact, hence `ℚ`. -/
structure Lap where
  driver : String
  team : String
  lapTime : Option ℚ
  lapNumber : ℕ

/-- The lap time of a lap known to be valid (`getD` never sees `none` on
the rows that survive the `notna` filter). -/
def lap_time_q (l : Lap) : ℚ := l.lapTime.getD 0

/-- Source line 64: `laps = laps[laps['LapTime'].notna()]`. -/
def valid_laps (laps : List Lap) : List Lap :=
  laps.filter (fun l => l.lapTime.isSome)

/-- Model of `DataFrame.idxmin` followed by `.loc` on the `LapTime` column:
the first row attaining the minimal lap time, `none` for an empty list. -/
def idxmin_lap (ls : List Lap) : Option Lap :=
  ls.foldl
    (fun acc l =>
      match acc with
      | none => some l
      | some m => if lap_time_q l < lap_time_q m then some l else some m)
    none

/-- Insert a lap into a list sorted by ascending lap time (stable). -/
def insert_by_time (l : Lap) : List Lap → List Lap
  | [] => [l]
  | m :: ms =>
    if lap_time_q m ≤ lap_time_q l then m :: insert_by_time l ms
    else l :: m :: ms

/-- Sort laps by ascending lap time, modelling `sort_values(by='LapTime')`. -/
def sort_by_time (ls : List Lap) : List Lap :=
  ls.foldr insert_by_time []

/-- Source line 69: `laps.loc[laps.groupby('Driver')['LapTime'].idxmin()]
.sort_values(by='LapTime')` — each driver's first fastest valid lap,
sorted by lap time. -/
def fastest_laps (laps : List Lap) : List Lap :=
  sort_by_time
    (((valid_laps laps).map (fun l => l.driver)).eraseDups.filterMap
      (fun d => idxmin_lap ((valid_laps laps).filter (fun l => l.driver = d))))

/-- Source line 70: `drivers_to_track = fastest_laps.head(NUM_DRIVERS)`. -/
def drivers_to_track (laps : List Lap) : List Lap :=
  (fastest_laps laps).take NUM_DRIVERS

/-- Source lines 86-94: a candidate is kept exactly when `row.get_telemetry()`
does not raise (`none` models either a raised exception or `None`) and the
returned telemetry frame is non-empty. -/
def usable_telemetry : Option (List TelemetryRow) → Bool
  | none => false
  | some [] => false
  | some (_ :: _) => true

/-- The candidates that survive the telemetry pre-fetch loop of source
lines 86-94 (`temp_raw_telemetry_list`), in order. -/
def surviving (laps : List Lap) (telem : String → Option (List TelemetryRow)) :
    List Lap :=
  (drivers_to_track laps).filter (fun l => usable_telemetry (telem l.driver))

/-- Maximum raw timestamp of one telemetry frame: `tel['Time'].max()`. -/
def tel_max_time : List TelemetryRow → ℚ
  | [] => 0
  | r :: rs => rs.foldl (fun m q => max m q.time) r.time

/-- Source line 100: `total_seconds = max(max_time_list).total_seconds()`,
with `max_time_list` collected over the surviving candidates. -/
def max_time_of (surv : List Lap) (telem : String → Option (List TelemetryRow)) : ℚ :=
  match surv.map (fun l => tel_max_time ((telem l.driver).getD [])) with
  | [] => 0
  | q :: qs => qs.foldl max q

/-- Source lines 109-115: `plotting.get_driver_color` falling back to
`plotting.get_team_color` falling back to `'#FFFFFF'`; the two resolvers
are external, modelled as `Option`-valued parameters (`none` = raised). -/
def resolve_color (driver_color team_color : String → Option String) (l : Lap) :
    String :=
  match driver_color l.driver with
  | some c => c
  | none =>
    match team_color l.team with
    | some c => c
    | none => "#FFFFFF"

/-- One competitor's aligned record (the `data` dict of source
lines 124-132). -/
structure AlignedData where
  driver : String
  color : String
  x_interp : List ℝ
  y_interp : List ℝ
  speed_interp : List ℝ
  lapTime : ℚ
  cumulative_dist : List ℝ

/-- Assembly of one aligned record (source lines 104-133): interpolate the
three channels onto the shared timeline and pre-calculate cumulative
distances. -/
noncomputable def make_aligned (l : Lap) (tel : List TelemetryRow) (ts : List ℝ)
    (driver_color team_color : String → Option String) : AlignedData :=
  let xi := (interpolate_telemetry tel ts).1
  let yi := (interpolate_telemetry tel ts).2.1
  let si := (interpolate_telemetry tel ts).2.2
  { driver := l.driver
    color := resolve_color driver_color team_color l
    x_interp := xi
    y_interp := yi
    speed_interp := si
    lapTime := lap_time_q l
    cumulative_dist := cumulative_distances xi yi }

/-- Model of `load_and_synchronize_data` (source lines 54-143): the state it
produces is `(all_interpolated_data, total_seconds, times)`.  Raises
(`Except.error`) exactly as the source does: no valid laps (line 67), no
usable telemetry among the candidates (line 97), or an empty roster
(line 139). -/
noncomputable def load_and_synchronize_data (laps : List Lap)
    (telem : String → Option (List TelemetryRow))
    (driver_color team_color : String → Option String) :
    Except String (List AlignedData × ℝ × List ℝ) :=
  if (valid_laps laps).isEmpty then
    .error "No valid laps found in session data."
  else if (surviving laps telem).isEmpty then
    .error "No valid telemetry data found for the top drivers."
  else if ((surviving laps telem).map (fun l =>
      make_aligned l ((telem l.driver).getD [])
        (times ((max_time_of (surviving laps telem) telem : ℚ) : ℝ))
        driver_color team_color)).isEmpty then
    .error "No driver data was successfully loaded."
  else
    .ok ((surviving laps telem).map (fun l =>
        make_aligned l ((telem l.driver).getD [])
          (times ((max_time_of (surviving laps telem) telem : ℚ) : ℝ))
          driver_color team_color),
      ((max_time_of (surviving laps telem) telem : ℚ) : ℝ),
      times ((max_time_of (surviving laps telem) telem : ℚ) : ℝ))

/-! ## Playback controller (source lines 293-369) -/

/-- The mutable playback state: `current_frame`, `is_paused`,
`slider_active` (the transient seek flag).  `current_frame` is a Python
int, hence `ℤ`. -/
structure PlaybackState where
  current_frame : ℤ
  is_paused : Bool
  slider_active : Bool
deriving Repr, DecidableEq

/-- Python `int()` applied to a float: truncation toward zero. -/
noncomputable def py_int (x : ℝ) : ℤ :=
  if 0 ≤ x then ⌊x⌋ else ⌈x⌉

/-- Model of `slider_update(val)` (source lines 323-329): set the seek flag,
then `current_frame = int((val / 100) * (len(times) - 1))` followed by
`current_frame = max(0, min(current_frame, len(times) - 1))`.
`num_times` is `len(times)`. -/
noncomputable def slider_update (val : ℝ) (num_times : ℕ) (s : PlaybackState) :
    PlaybackState :=
  { s with
    slider_active := true
    current_frame :=
      max 0 (min (py_int ((val / 100) * ((num_times : ℝ) - 1)))
                 ((num_times : ℤ) - 1)) }

/-- Model of `pause_callback` (source lines 293-297). -/
def pause_callback (s : PlaybackState) : PlaybackState :=
  { s with is_paused := !s.is_paused }

/-- Model of `reset_callback` (source lines 308-313): `current_frame = 0`,
`slider_active = False`, then `progress_slider.set_val(0)` — which, since
the slider's `eventson` is not disabled here, immediately re-invokes
`slider_update(0)` on the just-reset state. -/
noncomputable def reset_callback (num_times : ℕ) (s : PlaybackState) : PlaybackState :=
  slider_update 0 num_times { s with current_frame := 0, slider_active := false }

/-- State effect of one animation tick, `update(frame)` (source
lines 348-363): no-op when paused; otherwise take the frame from the
external counter modulo `len(times)` unless the seek flag is set, in which
case consume the flag and keep the seeked frame; finally clamp into
`[0, len(times) - 1]`. -/
def update_tick (frame : ℕ) (num_times : ℕ) (s : PlaybackState) : PlaybackState :=
  if s.is_paused then s
  else
    let s1 :=
      if !s.slider_active then
        { s with current_frame := (frame : ℤ) % (num_times : ℤ) }
      else
        { s with slider_active := false }
    { s1 with current_frame := max 0 (min s1.current_frame ((num_times : ℤ) - 1)) }

/-! ## Gap calculator (source lines 374-431) -/

/-- Entry of `driver_cumulative_distances` for one record at a frame
(source lines 380-395): the pre-calculated cumulative distance when the
frame is in range, `0` otherwise. -/
noncomputable def cum_dist_at (d : AlignedData) (frame : ℕ) : ℝ :=
  if frame < d.x_interp.length then d.cumulative_dist.getD frame 0 else 0

/-- The divisor of the gap computation (source lines 414-421): average of
the two speeds converted to m/s when the frame is in range for both speed
arrays, substituting `1` whenever the average (resp. the fallback
`max_speed`) is not positive. -/
noncomputable def avg_speed_mps (d1 d2 : AlignedData) (frame : ℕ) (max_speed : ℝ) : ℝ :=
  if frame < d1.speed_interp.length ∧ frame < d2.speed_interp.length then
    if (d1.speed_interp.getD frame 0 + d2.speed_interp.getD frame 0) / 2 > 0 then
      (d1.speed_interp.getD frame 0 + d2.speed_interp.getD frame 0) / 2 / 3.6
    else 1
  else if max_speed > 0 then max_speed / 3.6 else 1

/-- Source line 423: `time_gap = abs(distance_gap) / avg_speed_mps if
avg_speed_mps > 0 else 0`. -/
noncomputable def time_gap_at (d1 d2 : AlignedData) (frame : ℕ) (max_speed : ℝ) : ℝ :=
  if avg_speed_mps d1 d2 frame max_speed > 0 then
    |cum_dist_at d1 frame - cum_dist_at d2 frame| / avg_speed_mps d1 d2 frame max_speed
  else 0

/-- The gap text shown in ghost mode, abstracted from the three
`gap_text.set_text` branches. -/
inductive GapMsg where
  | sideBySide : GapMsg
  | ahead (driver : String) (time_gap : ℝ) : GapMsg

/-- The gap classification of source lines 405-431: side by side when the
absolute distance gap is below one metre, otherwise the record with the
larger cumulative distance is ahead by `time_gap` seconds. -/
noncomputable def gap_message (d1 d2 : AlignedData) (frame : ℕ) (max_speed : ℝ) :
    GapMsg :=
  if |cum_dist_at d1 frame - cum_dist_at d2 frame| < 1 then .sideBySide
  else if cum_dist_at d1 frame - cum_dist_at d2 frame > 0 then
    .ahead d1.driver (time_gap_at d1 d2 frame max_speed)
  else .ahead d2.driver (time_gap_at d1 d2 frame max_speed)

/-! ## Helper lemmas -/

/-- Running minimum of a value and a list (used to state the interpolation
boundedness property). -/
noncomputable def list_min (a : ℝ) : List ℝ → ℝ
  | [] => a
  | b :: l => list_min (min a b) l

/-- Running maximum of a value and a list. -/
noncomputable def list_max (a : ℝ) : List ℝ → ℝ
  | [] => a
  | b :: l => list_max (max a b) l

theorem list_min_le : ∀ (l : List ℝ) (a : ℝ),
    list_min a l ≤ a ∧ ∀ b ∈ l, list_min a l ≤ b := by
  intro l
  induction l with
  | nil => exact fun a => ⟨le_refl a, by simp⟩
  | cons b l ih =>
    intro a
    have h := ih (min a b)
    refine ⟨le_trans h.1 (min_le_left a b), fun c hc => ?_⟩
    rcases List.mem_cons.mp hc with rfl | hc
    · exact le_trans h.1 (min_le_right a c)
    · exact h.2 c hc

theorem le_list_max : ∀ (l : List ℝ) (a : ℝ),
    a ≤ list_max a l ∧ ∀ b ∈ l, b ≤ list_max a l := by
  intro l
  induction l with
  | nil => exact fun a => ⟨le_refl a, by simp⟩
  | cons b l ih =>
    intro a
    have h := ih (max a b)
    refine ⟨le_trans (le_max_left a b) h.1, fun c hc => ?_⟩
    rcases List.mem_cons.mp hc with rfl | hc
    · exact le_trans (le_max_right a c) h.1
    · exact h.2 c hc

/-- Strictly increasing sample abscissae, as numpy assumes of `xp`. -/
def PairSorted (p : ℝ × ℝ) (l : List (ℝ × ℝ)) : Prop :=
  List.Chain (fun a b : ℝ × ℝ => a.1 < b.1) p l

theorem np_interp_le (t M : ℝ) :
    ∀ (l : List (ℝ × ℝ)) (p : ℝ × ℝ), PairSorted p l →
      p.2 ≤ M → (∀ q ∈ l, q.2 ≤ M) → np_interp t p l ≤ M := by
  intro l
  induction l with
  | nil =>
    intro p _ hp _
    simpa [np_interp] using hp
  | cons q l ih =>
    intro p hc hp hl
    rw [PairSorted, List.chain_cons] at hc
    obtain ⟨hpq, hql⟩ := hc
    have hqM : q.2 ≤ M := hl q (List.mem_cons_self q l)
    by_cases h1 : t ≤ p.1
    · simpa [np_interp, h1] using hp
    · by_cases h2 : t ≤ q.1
      · have hx : 0 < q.1 - p.1 := sub_pos.mpr hpq
        have hr0 : 0 ≤ (t - p.1) / (q.1 - p.1) :=
          div_nonneg (by linarith [not_le.mp h1]) hx.le
        have hr1 : (t - p.1) / (q.1 - p.1) ≤ 1 := (div_le_one hx).mpr (by linarith)
        simp only [np_interp, if_neg h1, if_pos h2]
        nlinarith [mul_nonneg (by linarith : (0 : ℝ) ≤ 1 - (t - p.1) / (q.1 - p.1))
            (by linarith : (0 : ℝ) ≤ M - p.2),
          mul_nonneg hr0 (by linarith : (0 : ℝ) ≤ M - q.2)]
      · simp only [np_interp, if_neg h1, if_neg h2]
        exact ih q hql hqM fun x hx => hl x (List.mem_cons_of_mem q hx)

theorem le_np_interp (t m : ℝ) :
    ∀ (l : List (ℝ × ℝ)) (p : ℝ × ℝ), PairSorted p l →
      m ≤ p.2 → (∀ q ∈ l, m ≤ q.2) → m ≤ np_interp t p l := by
  intro l
  induction l with
  | nil =>
    intro p _ hp _
    simpa [np_interp] using hp
  | cons q l ih =>
    intro p hc hp hl
    rw [PairSorted, List.chain_cons] at hc
    obtain ⟨hpq, hql⟩ := hc
    have hqM : m ≤ q.2 := hl q (List.mem_cons_self q l)
    by_cases h1 : t ≤ p.1
    · simpa [np_interp, h1] using hp
    · by_cases h2 : t ≤ q.1
      · have hx : 0 < q.1 - p.1 := sub_pos.mpr hpq
        have hr0 : 0 ≤ (t - p.1) / (q.1 - p.1) :=
          div_nonneg (by linarith [not_le.mp h1]) hx.le
        have hr1 : (t - p.1) / (q.1 - p.1) ≤ 1 := (div_le_one hx).mpr (by linarith)
        simp only [np_interp, if_neg h1, if_pos h2]
        nlinarith [mul_nonneg (by linarith : (0 : ℝ) ≤ 1 - (t - p.1) / (q.1 - p.1))
            (by linarith : (0 : ℝ) ≤ p.2 - m),
          mul_nonneg hr0 (by linarith : (0 : ℝ) ≤ q.2 - m)]
      · simp only [np_interp, if_neg h1, if_neg h2]
        exact ih q hql hqM fun x hx => hl x (List.mem_cons_of_mem q hx)

theorem np_interp_left (t : ℝ) (p : ℝ × ℝ) (l : List (ℝ × ℝ)) (h : t ≤ p.1) :
    np_interp t p l = p.2 := by
  cases l with
  | nil => rfl
  | cons q l => simp [np_interp, h]

theorem chain_fst_le_getLast :
    ∀ (l : List (ℝ × ℝ)) (p : ℝ × ℝ), PairSorted p l →
      p.1 ≤ (List.getLast (p :: l) (List.cons_ne_nil p l)).1 := by
  intro l
  induction l with
  | nil =>
    intro p _
    simp
  | cons q l ih =>
    intro p hc
    rw [PairSorted, List.chain_cons] at hc
    rw [List.getLast_cons (List.cons_ne_nil q l)]
    exact le_trans hc.1.le (ih q hc.2)

theorem np_interp_right (t : ℝ) :
    ∀ (l : List (ℝ × ℝ)) (p : ℝ × ℝ), PairSorted p l →
      (List.getLast (p :: l) (List.cons_ne_nil p l)).1 < t →
      np_interp t p l = (List.getLast (p :: l) (List.cons_ne_nil p l)).2 := by
  intro l
  induction l with
  | nil =>
    intro p _ _
    simp [np_interp]
  | cons q l ih =>
    intro p hc hlast
    rw [PairSorted, List.chain_cons] at hc
    rw [List.getLast_cons (List.cons_ne_nil q l)] at hlast ⊢
    have hqt : q.1 < t := lt_of_le_of_lt (chain_fst_le_getLast l q hc.2) hlast
    have hpt : p.1 < t := lt_trans hc.1 hqt
    simp only [np_interp, if_neg (not_le.mpr hpt), if_neg (not_le.mpr hqt)]
    exact ih q hc.2 hlast

/-- Transfer of the per-channel facts about `np_interp` to a channel `f` of
a time-sorted telemetry list. -/
theorem np_interp_channel (f : TelemetryRow → ℝ) (r : TelemetryRow)
    (rs : List TelemetryRow)
    (hsorted : List.Chain (fun a b : TelemetryRow => a.time < b.time) r rs) :
    (∀ t : ℝ,
      list_min (f r) (rs.map f) ≤
        np_interp t ((r.time : ℝ), f r) (rs.map fun s => ((s.time : ℝ), f s)) ∧
      np_interp t ((r.time : ℝ), f r) (rs.map fun s => ((s.time : ℝ), f s)) ≤
        list_max (f r) (rs.map f)) ∧
    (∀ t : ℝ, t ≤ (r.time : ℝ) →
      np_interp t ((r.time : ℝ), f r) (rs.map fun s => ((s.time : ℝ), f s)) = f r) ∧
    (∀ t : ℝ, ((List.getLast (r :: rs) (List.cons_ne_nil r rs)).time : ℝ) < t →
      np_interp t ((r.time : ℝ), f r) (rs.map fun s => ((s.time : ℝ), f s)) =
        f (List.getLast (r :: rs) (List.cons_ne_nil r rs))) := by
  have hchain : PairSorted ((r.time : ℝ), f r) (rs.map fun s => ((s.time : ℝ), f s)) :=
    (List.chain_map (fun s : TelemetryRow => ((s.time : ℝ), f s))).mpr
      (List.Chain.imp
        (fun a b hab => show ((a.time : ℝ)) < ((b.time : ℝ)) by exact_mod_cast hab)
        hsorted)
  have hgl2 : List.getLast (((r.time : ℝ), f r) :: rs.map fun s => ((s.time : ℝ), f s))
      (List.cons_ne_nil _ _) =
      (((List.getLast (r :: rs) (List.cons_ne_nil r rs)).time : ℝ),
        f (List.getLast (r :: rs) (List.cons_ne_nil r rs))) := by
    have h := List.getLast_map (fun s : TelemetryRow => ((s.time : ℝ), f s)) (r :: rs)
      (by simp)
    simpa using h
  refine ⟨fun t => ⟨?_, ?_⟩, fun t ht => np_interp_left t _ _ ht, fun t ht => ?_⟩
  · refine le_np_interp t (list_min (f r) (rs.map f)) _ _ hchain
      (list_min_le (rs.map f) (f r)).1 (fun q hq => ?_)
    obtain ⟨s, hs, rfl⟩ := List.mem_map.mp hq
    exact (list_min_le (rs.map f) (f r)).2 (f s) (List.mem_map.mpr ⟨s, hs, rfl⟩)
  · refine np_interp_le t (list_max (f r) (rs.map f)) _ _ hchain
      (le_list_max (rs.map f) (f r)).1 (fun q hq => ?_)
    obtain ⟨s, hs, rfl⟩ := List.mem_map.mp hq
    exact (le_list_max (rs.map f) (f r)).2 (f s) (List.mem_map.mpr ⟨s, hs, rfl⟩)
  · have key := np_interp_right t (rs.map fun s => ((s.time : ℝ), f s))
      ((r.time : ℝ), f r) hchain
    have h2 := key (by rw [hgl2]; exact ht)
    rw [hgl2] at h2
    exact h2

theorem update_tick_paused {s : PlaybackState} (h : s.is_paused = true)
    (frame num_times : ℕ) : update_tick frame num_times s = s := by
  simp [update_tick, h]

theorem foldl_update_tick_paused (n : ℕ) (fs : List ℕ) (s : PlaybackState)
    (h : s.is_paused = true) :
    fs.foldl (fun st f => update_tick f n st) s = s := by
  induction fs with
  | nil => rfl
  | cons a as ih => rw [List.foldl_cons, update_tick_paused h a n]; exact ih

theorem avg_speed_mps_comm (d1 d2 : AlignedData) (frame : ℕ) (max_speed : ℝ) :
    avg_speed_mps d1 d2 frame max_speed = avg_speed_mps d2 d1 frame max_speed := by
  by_cases h1 : frame < d1.speed_interp.length <;>
    by_cases h2 : frame < d2.speed_interp.length <;>
      simp [avg_speed_mps, h1, h2, add_comm]

theorem time_gap_at_comm (d1 d2 : AlignedData) (frame : ℕ) (max_speed : ℝ) :
    time_gap_at d1 d2 frame max_speed = time_gap_at d2 d1 frame max_speed := by
  unfold time_gap_at
  rw [avg_speed_mps_comm, abs_sub_comm]

theorem cumulative_distances_getD (xs ys : List ℝ) (i : ℕ) (h : i < xs.length) :
    (cumulative_distances xs ys).getD i 0 = cum_val xs ys i := by
  have h2 : i < ((List.range xs.length).map (cum_val xs ys)).length := by
    simpa using h
  rw [cumulative_distances, List.getD_eq_getElem _ _ h2]
  simp

theorem cum_val_monotone (xs ys : List ℝ) : Monotone (cum_val xs ys) :=
  monotone_nat_of_le_succ fun _ => le_add_of_nonneg_right (Real.sqrt_nonneg _)

theorem times_length (T : ℝ) : (times T).length = ⌈T * (FPS : ℝ)⌉₊ := by
  have harg : (T - 0) / (1 / (FPS : ℝ)) = T * (FPS : ℝ) := by
    rw [sub_zero, one_div, div_eq_mul_inv, inv_inv]
  simp only [times, np_arange, List.length_map, List.length_range, harg]

theorem times_getD (T : ℝ) (i : ℕ) (h : i < (times T).length) :
    (times T).getD i 0 = (i : ℝ) * (1 / (FPS : ℝ)) := by
  have h2 : i < ((List.range ⌈(T - 0) / (1 / (FPS : ℝ))⌉₊).map
      (fun j : ℕ => 0 + (j : ℝ) * (1 / (FPS : ℝ)))).length := by
    simpa [times, np_arange] using h
  rw [times, np_arange, List.getD_eq_getElem _ _ h2]
  simp only [List.getElem_map, List.getElem_range, zero_add]

/-! ## Claims about the synchronization data (distances, timeline) -/

/-- C1: for every competitor's aligned record, the cumulative distance array
has one entry per interpolated sample, satisfies `dist[0] = 0` and
`dist[i] = dist[i-1] + sqrt(dx^2 + dy^2)` for the in-range indices, and is
non-decreasing at every index. -/
theorem c1_cumulative_distance (xs ys : List ℝ) :
    (cumulative_distances xs ys).length = xs.length ∧
    (cumulative_distances xs ys).getD 0 0 = 0 ∧
    (∀ i, i + 1 < xs.length →
      (cumulative_distances xs ys).getD (i + 1) 0 =
        (cumulative_distances xs ys).getD i 0 +
          Real.sqrt ((xs.getD (i + 1) 0 - xs.getD i 0) ^ 2 +
                     (ys.getD (i + 1) 0 - ys.getD i 0) ^ 2)) ∧
    (∀ i j, i ≤ j → j < xs.length →
      (cumulative_distances xs ys).getD i 0 ≤
        (cumulative_distances xs ys).getD j 0) := by
  refine ⟨by simp [cumulative_distances], ?_, fun i h => ?_, fun i j hij hj => ?_⟩
  · by_cases h : 0 < xs.length
    · rw [cumulative_distances_getD xs ys 0 h]; rfl
    · have hlen : xs.length = 0 := by omega
      simp [cumulative_distances, hlen]
  · rw [cumulative_distances_getD xs ys (i + 1) h,
      cumulative_distances_getD xs ys i (by omega)]
    rfl
  · rw [cumulative_distances_getD xs ys i (by omega),
      cumulative_distances_getD xs ys j hj]
    exact cum_val_monotone xs ys hij

/-- Witness for C1 on the concrete positions `x = [0, 3]`, `y = [0, 4]`. -/
theorem c1_cumulative_distance_witness :
    (cumulative_distances [(0 : ℝ), 3] [0, 4]).getD 0 0 = 0 ∧
    (cumulative_distances [(0 : ℝ), 3] [0, 4]).getD 0 0 ≤
      (cumulative_distances [(0 : ℝ), 3] [0, 4]).getD 1 0 :=
  ⟨(c1_cumulative_distance [0, 3] [0, 4]).2.1,
    (c1_cumulative_distance [0, 3] [0, 4]).2.2.2 0 1 (by norm_num) (by simp)⟩

/-- C3: the shared timeline built from a positive `maxDuration` has length
`ceil(maxDuration * FPS)`, starts at `0`, steps by exactly `1/FPS` between
consecutive timestamps, and every timestamp is strictly below
`maxDuration`. -/
theorem c3_timeline_shape (T : ℝ) (hT : 0 < T) :
    (times T).length = ⌈T * (FPS : ℝ)⌉₊ ∧
    (times T).getD 0 0 = 0 ∧
    (∀ i, i + 1 < (times T).length →
      (times T).getD (i + 1) 0 - (times T).getD i 0 = 1 / (FPS : ℝ)) ∧
    (∀ i, i < (times T).length → (times T).getD i 0 < T) := by
  have hFPS : (0 : ℝ) < (FPS : ℝ) := by norm_num [FPS]
  have hlen0 : 0 < (times T).length := by
    rw [times_length]
    exact Nat.ceil_pos.mpr (by positivity)
  refine ⟨times_length T, ?_, fun i h => ?_, fun i h => ?_⟩
  · rw [times_getD T 0 hlen0]
    norm_num
  · rw [times_getD T (i + 1) h, times_getD T i (by omega)]
    push_cast
    ring
  · rw [times_getD T i h]
    have hceil : i < ⌈T * (FPS : ℝ)⌉₊ := by rwa [times_length] at h
    have hlt : (i : ℝ) < T * (FPS : ℝ) := Nat.lt_ceil.mp hceil
    rw [mul_one_div, div_lt_iff₀ hFPS]
    exact hlt

/-- Witness for C3 at `maxDuration = 1` second: the first timestamp is `0`
and is below the duration. -/
theorem c3_timeline_shape_witness :
    (times 1).getD 0 0 = 0 ∧ (times 1).getD 0 0 < 1 := by
  have h := c3_timeline_shape 1 (by norm_num)
  refine ⟨h.2.1, h.2.2.2 0 ?_⟩
  rw [times_length]
  norm_num [FPS]

/-- C2: for a competitor with non-empty, time-sorted raw samples, every
resampled X, Y and speed value lies within the closed interval
`[min, max]` of that competitor's raw values for the respective channel,
and for query times at or before the first raw sample, or after the last
raw sample, the result equals the first, resp. last, raw value (no
extrapolation). -/
theorem c2_interpolation (r : TelemetryRow) (rs : List TelemetryRow) (ts : List ℝ)
    (hsorted : List.Chain (fun a b : TelemetryRow => a.time < b.time) r rs) :
    (∀ v ∈ (interpolate_telemetry (r :: rs) ts).1,
      list_min r.x (rs.map (fun s => s.x)) ≤ v ∧
        v ≤ list_max r.x (rs.map (fun s => s.x))) ∧
    (∀ v ∈ (interpolate_telemetry (r :: rs) ts).2.1,
      list_min r.y (rs.map (fun s => s.y)) ≤ v ∧
        v ≤ list_max r.y (rs.map (fun s => s.y))) ∧
    (∀ v ∈ (interpolate_telemetry (r :: rs) ts).2.2,
      list_min r.speed (rs.map (fun s => s.speed)) ≤ v ∧
        v ≤ list_max r.speed (rs.map (fun s => s.speed))) ∧
    (∀ t ∈ ts, t ≤ (r.time : ℝ) →
      np_interp t ((r.time : ℝ), r.x) (rs.map fun s => ((s.time : ℝ), s.x)) = r.x ∧
      np_interp t ((r.time : ℝ), r.y) (rs.map fun s => ((s.time : ℝ), s.y)) = r.y ∧
      np_interp t ((r.time : ℝ), r.speed)
        (rs.map fun s => ((s.time : ℝ), s.speed)) = r.speed) ∧
    (∀ t ∈ ts, ((List.getLast (r :: rs) (List.cons_ne_nil r rs)).time : ℝ) < t →
      np_interp t ((r.time : ℝ), r.x) (rs.map fun s => ((s.time : ℝ), s.x)) =
        (List.getLast (r :: rs) (List.cons_ne_nil r rs)).x ∧
      np_interp t ((r.time : ℝ), r.y) (rs.map fun s => ((s.time : ℝ), s.y)) =
        (List.getLast (r :: rs) (List.cons_ne_nil r rs)).y ∧
      np_interp t ((r.time : ℝ), r.speed)
        (rs.map fun s => ((s.time : ℝ), s.speed)) =
        (List.getLast (r :: rs) (List.cons_ne_nil r rs)).speed) := by
  have hx := np_interp_channel (fun s => s.x) r rs hsorted
  have hy := np_interp_channel (fun s => s.y) r rs hsorted
  have hsp := np_interp_channel (fun s => s.speed) r rs hsorted
  refine ⟨fun v hv => ?_, fun v hv => ?_, fun v hv => ?_,
    fun t _ hle => ⟨hx.2.1 t hle, hy.2.1 t hle, hsp.2.1 t hle⟩,
    fun t _ hgt => ⟨hx.2.2 t hgt, hy.2.2 t hgt, hsp.2.2 t hgt⟩⟩
  · simp only [interpolate_telemetry] at hv
    obtain ⟨t, _, rfl⟩ := List.mem_map.mp hv
    exact hx.1 t
  · simp only [interpolate_telemetry] at hv
    obtain ⟨t, _, rfl⟩ := List.mem_map.mp hv
    exact hy.1 t
  · simp only [interpolate_telemetry] at hv
    obtain ⟨t, _, rfl⟩ := List.mem_map.mp hv
    exact hsp.1 t

/-- Witness for C2 on two concrete raw samples `(0, x=0)` and `(1, x=10)`:
a query at `t = 2` (past the last sample) returns the last raw value `10`
and a query at `t = -1` (before the first sample) returns the first raw
value `0`. -/
theorem c2_interpolation_witness :
    np_interp 2 ((((0 : ℚ)) : ℝ), (0 : ℝ))
        ([(⟨1, 10, 0, 100⟩ : TelemetryRow)].map fun s => ((s.time : ℝ), s.x)) =
      (10 : ℝ) ∧
    np_interp (-1) ((((0 : ℚ)) : ℝ), (0 : ℝ))
        ([(⟨1, 10, 0, 100⟩ : TelemetryRow)].map fun s => ((s.time : ℝ), s.x)) =
      (0 : ℝ) := by
  have h := c2_interpolation ⟨0, 0, 0, 100⟩ [⟨1, 10, 0, 100⟩] [2, -1]
    (List.chain_cons.mpr ⟨by norm_num, List.Chain.nil⟩)
  constructor
  · have h2 := (h.2.2.2.2 2 (by simp) (by simp [List.getLast])).1
    simpa using h2
  · have h2 := (h.2.2.2.1 (-1) (by simp) (by norm_num)).1
    simpa using h2

/-- C5: a competitor whose raw telemetry is empty or missing is skipped
without aborting the load; the load raises exactly when either no valid
laps exist or every candidate lacked usable telemetry; otherwise it
succeeds and the roster has one member per surviving candidate. -/
theorem c5_skip_or_abort (laps : List Lap)
    (telem : String → Option (List TelemetryRow))
    (driver_color team_color : String → Option String) :
    ((∃ e, load_and_synchronize_data laps telem driver_color team_color =
        .error e) ↔
      ((valid_laps laps).isEmpty = true ∨ (surviving laps telem).isEmpty = true)) ∧
    (∀ ros t ts, load_and_synchronize_data laps telem driver_color team_color =
        .ok (ros, t, ts) → ros.length = (surviving laps telem).length) ∧
    (¬((valid_laps laps).isEmpty = true ∨ (surviving laps telem).isEmpty = true) →
      ∃ ros t ts, load_and_synchronize_data laps telem driver_color team_color =
        .ok (ros, t, ts) ∧ ros.length = (surviving laps telem).length) := by
  by_cases h1 : (valid_laps laps).isEmpty
  · refine ⟨⟨fun _ => Or.inl h1, fun _ => ?_⟩, fun ros t ts hok => ?_, fun hne => ?_⟩
    · exact ⟨"No valid laps found in session data.",
        by rw [load_and_synchronize_data, if_pos h1]⟩
    · rw [load_and_synchronize_data, if_pos h1] at hok
      exact absurd hok (by simp)
    · exact absurd (Or.inl h1) hne
  · by_cases h2 : (surviving laps telem).isEmpty
    · refine ⟨⟨fun _ => Or.inr h2, fun _ => ?_⟩, fun ros t ts hok => ?_, fun hne => ?_⟩
      · exact ⟨"No valid telemetry data found for the top drivers.",
          by rw [load_and_synchronize_data, if_neg h1, if_pos h2]⟩
      · rw [load_and_synchronize_data, if_neg h1, if_pos h2] at hok
        exact absurd hok (by simp)
      · exact absurd (Or.inr h2) hne
    · have h3 : ¬((surviving laps telem).map (fun l =>
          make_aligned l ((telem l.driver).getD [])
            (times ((max_time_of (surviving laps telem) telem : ℚ) : ℝ))
            driver_color team_color)).isEmpty := by
        cases hs : surviving laps telem with
        | nil => rw [hs] at h2; exact absurd rfl h2
        | cons a l => simp [hs]
      have hok : load_and_synchronize_data laps telem driver_color team_color =
          .ok ((surviving laps telem).map (fun l =>
              make_aligned l ((telem l.driver).getD [])
                (times ((max_time_of (surviving laps telem) telem : ℚ) : ℝ))
                driver_color team_color),
            ((max_time_of (surviving laps telem) telem : ℚ) : ℝ),
            times ((max_time_of (surviving laps telem) telem : ℚ) : ℝ)) := by
        rw [load_and_synchronize_data, if_neg h1, if_neg h2, if_neg h3]
      refine ⟨⟨fun ⟨e, he⟩ => ?_, fun hor => absurd hor (by simp [h1, h2])⟩,
        fun ros t ts hok2 => ?_, fun _ => ?_⟩
      · rw [hok] at he
        exact absurd he (by simp)
      · rw [hok] at hok2
        have hros := congrArg (fun x : Except String (List AlignedData × ℝ × List ℝ) =>
          match x with
          | .ok v => v.1
          | .error _ => []) hok2
        simp only at hros
        rw [← hros, List.length_map]
      · exact ⟨_, _, _, hok, by rw [List.length_map]⟩

/-- Concrete five-candidate lap table for the C5 witness. -/
def laps5 : List Lap :=
  [⟨"ALO", "T1", some 70, 1⟩, ⟨"BOT", "T2", some 71, 1⟩,
   ⟨"CHA", "T3", some 72, 1⟩, ⟨"DRI", "T4", some 73, 1⟩,
   ⟨"EVA", "T5", some 74, 1⟩]

/-- Concrete telemetry source for the C5 witness: every candidate except
`"EVA"` has two raw samples; `"EVA"` has none. -/
noncomputable def telem5 : String → Option (List TelemetryRow) :=
  fun d => if d = "EVA" then none else some [⟨0, 0, 0, 100⟩, ⟨1, 10, 0, 100⟩]

/-- Witness for C5: with five candidates of which exactly one lacks
telemetry, the load succeeds and the roster has exactly four members. -/
theorem c5_skip_or_abort_witness :
    ¬((valid_laps laps5).isEmpty = true ∨ (surviving laps5 telem5).isEmpty = true) ∧
    (surviving laps5 telem5).length = 4 ∧
    ∃ ros t ts, load_and_synchronize_data laps5 telem5 (fun _ => none)
        (fun _ => none) = .ok (ros, t, ts) ∧ ros.length = 4 := by
  have hne : ¬((valid_laps laps5).isEmpty = true ∨
      (surviving laps5 telem5).isEmpty = true) := by decide
  have hlen : (surviving laps5 telem5).length = 4 := by decide
  obtain ⟨ros, t, ts, hok, hlen2⟩ :=
    (c5_skip_or_abort laps5 telem5 (fun _ => none) (fun _ => none)).2.2 hne
  exact ⟨hne, hlen, ros, t, ts, hok, by rw [hlen2, hlen]⟩

/-! ## Claims about the playback controller and gap calculator -/

/-- C8: for every playback state in which the paused flag is set, any number
of repeated tick calls leaves the frame index unchanged (source
lines 352-353: `update` returns before touching `current_frame` when
`is_paused`). -/
theorem c8_pause_invariance (n : ℕ) (s : PlaybackState) (h : s.is_paused = true)
    (fs : List ℕ) :
    (fs.foldl (fun st f => update_tick f n st) s).current_frame = s.current_frame := by
  rw [foldl_update_tick_paused n fs s h]

/-- Witness for C8 at a concrete paused state and four concrete ticks. -/
theorem c8_pause_invariance_witness :
    (([0, 1, 2, 3] : List ℕ).foldl (fun st f => update_tick f 5 st)
      ⟨2, true, false⟩).current_frame = 2 :=
  c8_pause_invariance 5 ⟨2, true, false⟩ rfl [0, 1, 2, 3]

/-- C4 counterexample: the claim says `seek(fraction)` sets the frame index
to `round(fraction/100 * (N-1))`, but the source (line 328) truncates with
Python `int(...)`: at `fraction = 50` and `N = 4` the code yields frame `1`
while `round(1.5) = 2`. -/
theorem c4_counterexample :
    (slider_update 50 4 ⟨0, false, false⟩).current_frame ≠
      round ((50 / 100 : ℝ) * ((4 : ℝ) - 1)) := by
  have h1 : (slider_update 50 4 ⟨0, false, false⟩).current_frame = 1 := by
    simp only [slider_update]
    norm_num [py_int]
  rw [h1]
  norm_num [round_eq]

/-- C4 amended: for every fraction in `[0,100]` and `N ≥ 1`, the seek
operation sets the frame index to the truncation `int(fraction/100 * (N-1))`
(floor, not round) clamped into `[0, N-1]`, and sets the seek flag; in
particular `seek(0)` yields frame `0` and `seek(100)` yields frame `N-1`. -/
theorem c4_amended (val : ℝ) (n : ℕ) (s : PlaybackState) (h0 : 0 ≤ val)
    (h1 : val ≤ 100) (hn : 1 ≤ n) :
    (slider_update val n s).current_frame = ⌊(val / 100) * ((n : ℝ) - 1)⌋ ∧
    0 ≤ (slider_update val n s).current_frame ∧
    (slider_update val n s).current_frame ≤ (n : ℤ) - 1 ∧
    (slider_update val n s).slider_active = true ∧
    (slider_update 0 n s).current_frame = 0 ∧
    (slider_update 100 n s).current_frame = (n : ℤ) - 1 := by
  have hn1 : (0 : ℝ) ≤ (n : ℝ) - 1 := by
    have h : (1 : ℝ) ≤ (n : ℝ) := by exact_mod_cast hn
    linarith
  have hcast : ⌊((n : ℝ) - 1)⌋ = (n : ℤ) - 1 := by
    rw [show ((n : ℝ) - 1) = ((n : ℝ) - ((1 : ℤ) : ℝ)) by norm_num,
      Int.floor_sub_int, Int.floor_natCast]
  have hx0 : 0 ≤ (val / 100) * ((n : ℝ) - 1) :=
    mul_nonneg (by positivity) hn1
  have hxle : (val / 100) * ((n : ℝ) - 1) ≤ (n : ℝ) - 1 := by
    have hd : val / 100 ≤ 1 := by
      rw [div_le_one (by norm_num : (0 : ℝ) < 100)]; linarith
    nlinarith
  have hfl : ⌊(val / 100) * ((n : ℝ) - 1)⌋ ≤ (n : ℤ) - 1 :=
    le_trans (Int.floor_le_floor hxle) (le_of_eq hcast)
  have hfl0 : 0 ≤ ⌊(val / 100) * ((n : ℝ) - 1)⌋ := Int.floor_nonneg.mpr hx0
  have hpy : py_int ((val / 100) * ((n : ℝ) - 1)) = ⌊(val / 100) * ((n : ℝ) - 1)⌋ := by
    rw [py_int, if_pos hx0]
  have hpy0 : py_int ((0 / 100 : ℝ) * ((n : ℝ) - 1)) = 0 := by
    rw [py_int, if_pos (by norm_num)]; norm_num
  have hpy100 : py_int (((100 : ℝ) / 100) * ((n : ℝ) - 1)) = (n : ℤ) - 1 := by
    have he : ((100 : ℝ) / 100) * ((n : ℝ) - 1) = (n : ℝ) - 1 := by norm_num
    rw [py_int, he, if_pos hn1, hcast]
  refine ⟨?_, ?_, ?_, rfl, ?_, ?_⟩ <;>
    simp only [slider_update, hpy, hpy0, hpy100] <;> omega

/-- Witness for C4 amended at `fraction = 50`, `N = 4`: the frame becomes
`⌊1.5⌋ = 1` and the boundary seeks give `0` and `3`. -/
theorem c4_amended_witness :
    (slider_update 50 4 ⟨0, false, false⟩).current_frame = 1 ∧
    (slider_update 0 4 ⟨0, false, false⟩).current_frame = 0 ∧
    (slider_update 100 4 ⟨0, false, false⟩).current_frame = 3 := by
  have h := c4_amended 50 4 ⟨0, false, false⟩ (by norm_num) (by norm_num)
    (by norm_num)
  refine ⟨?_, ?_, ?_⟩
  · rw [h.1]; norm_num
  · exact h.2.2.2.2.1
  · have h3 := h.2.2.2.2.2
    norm_num at h3
    exact h3

/-- C9 counterexample: the claim says `reset` leaves the seek flag cleared,
but `reset_callback` (source line 313) calls `progress_slider.set_val(0)`
with slider events enabled, which re-runs `slider_update` and re-sets the
flag: from the state `⟨5, false, false⟩` with `N = 10`, the flag ends up
set. -/
theorem c9_counterexample :
    ¬((reset_callback 10 ⟨5, false, false⟩).slider_active = false) := by
  simp [reset_callback, slider_update]

/-- C9 amended: from every playback state, `reset` leaves the frame index at
`0` and the paused flag retains its prior value (reset does not unpause),
but the seek flag ends up set, not cleared: the slider write inside reset
re-triggers the slider callback after the flag was cleared. -/
theorem c9_amended (n : ℕ) (s : PlaybackState) :
    (reset_callback n s).current_frame = 0 ∧
    (reset_callback n s).is_paused = s.is_paused ∧
    (reset_callback n s).slider_active = true := by
  have hpy0 : py_int ((0 / 100 : ℝ) * ((n : ℝ) - 1)) = 0 := by
    rw [py_int, if_pos (by norm_num)]; norm_num
  refine ⟨?_, rfl, rfl⟩
  simp only [reset_callback, slider_update, hpy0]
  omega

/-- C10: a tick taken while paused consumes neither the seek flag nor the
frame index (the whole state is unchanged); a seek issued while paused still
updates the frame index immediately (`slider_update` never consults the
paused flag); and an unpaused tick on a state with the seek flag set clears
the flag and keeps the (clamped) seeked frame instead of advancing from the
external counter. -/
theorem c10_seek_pause_interaction (n : ℕ) :
    (∀ (s : PlaybackState) (f : ℕ), s.is_paused = true → update_tick f n s = s) ∧
    (∀ (val : ℝ) (s : PlaybackState),
      (slider_update val n s).current_frame =
        max 0 (min (py_int ((val / 100) * ((n : ℝ) - 1))) ((n : ℤ) - 1)) ∧
      (slider_update val n s).slider_active = true ∧
      (slider_update val n s).is_paused = s.is_paused) ∧
    (∀ (s : PlaybackState) (f : ℕ), s.is_paused = false → s.slider_active = true →
      (update_tick f n s).slider_active = false ∧
      (update_tick f n s).current_frame = max 0 (min s.current_frame ((n : ℤ) - 1)) ∧
      (0 ≤ s.current_frame → s.current_frame ≤ (n : ℤ) - 1 →
        (update_tick f n s).current_frame = s.current_frame)) := by
  refine ⟨fun s f h => update_tick_paused h f n, fun val s => ⟨rfl, rfl, rfl⟩,
    fun s f hp ha => ?_⟩
  refine ⟨?_, ?_, fun hge hle => ?_⟩
  · simp [update_tick, hp, ha]
  · simp [update_tick, hp, ha]
  · simp only [update_tick, hp, ha]
    simp only [Bool.false_eq_true, if_false, Bool.not_true, if_true]
    omega

/-- Witness for C10: a paused tick leaves a seeked state untouched, and the
first unpaused tick consumes the flag while keeping the seeked frame `3`
(not the external counter value `7`). -/
theorem c10_seek_pause_interaction_witness :
    update_tick 7 5 ⟨3, true, true⟩ = ⟨3, true, true⟩ ∧
    (update_tick 7 5 ⟨3, false, true⟩).slider_active = false ∧
    (update_tick 7 5 ⟨3, false, true⟩).current_frame = 3 := by
  have h := c10_seek_pause_interaction 5
  have h3 := h.2.2 ⟨3, false, true⟩ 7 rfl rfl
  exact ⟨h.1 ⟨3, true, true⟩ 7 rfl, h3.1,
    h3.2.2 (by norm_num) (by norm_num)⟩

/-- C7: the divisor of the gap computation is always strictly positive — in
particular `1` is substituted whenever the average of the two speeds at the
current frame is not positive — so the time gap never divides by zero and
is non-negative (well-defined) at every frame. -/
theorem c7_divisor_safe (d1 d2 : AlignedData) (frame : ℕ) (max_speed : ℝ) :
    0 < avg_speed_mps d1 d2 frame max_speed ∧
    ((frame < d1.speed_interp.length ∧ frame < d2.speed_interp.length) →
      (d1.speed_interp.getD frame 0 + d2.speed_interp.getD frame 0) / 2 ≤ 0 →
      avg_speed_mps d1 d2 frame max_speed = 1) ∧
    0 ≤ time_gap_at d1 d2 frame max_speed := by
  have hpos : 0 < avg_speed_mps d1 d2 frame max_speed := by
    unfold avg_speed_mps
    split_ifs with h1 h2 h3
    · exact div_pos h2 (by norm_num)
    · norm_num
    · exact div_pos h3 (by norm_num)
    · norm_num
  refine ⟨hpos, fun hin havg => ?_, ?_⟩
  · unfold avg_speed_mps
    rw [if_pos hin, if_neg (by linarith)]
  · unfold time_gap_at
    rw [if_pos hpos]
    exact div_nonneg (abs_nonneg _) hpos.le

/-- Witness for C7 at a concrete frame with negative speeds: the divisor is
substituted by `1`. -/
theorem c7_divisor_safe_witness :
    0 < avg_speed_mps ⟨"A", "c", [0], [0], [-10], 70, [0]⟩
        ⟨"B", "c", [0], [0], [-10], 70, [0]⟩ 0 0 ∧
    avg_speed_mps ⟨"A", "c", [0], [0], [-10], 70, [0]⟩
        ⟨"B", "c", [0], [0], [-10], 70, [0]⟩ 0 0 = 1 := by
  have h := c7_divisor_safe ⟨"A", "c", [0], [0], [-10], 70, [0]⟩
    ⟨"B", "c", [0], [0], [-10], 70, [0]⟩ 0 0
  exact ⟨h.1, h.2.1 (by simp) (by norm_num)⟩

/-- C6: the gap messages computed for `(A,B)` and for `(B,A)` agree — same
time-gap magnitude, with "ahead" attributed to the opposite argument slot,
hence to the same competitor — and both report "side by side" exactly when
the absolute cumulative-distance difference at the frame is below one
metre. -/
theorem c6_gap_symmetry (d1 d2 : AlignedData) (frame : ℕ) (max_speed : ℝ) :
    gap_message d1 d2 frame max_speed = gap_message d2 d1 frame max_speed ∧
    (gap_message d1 d2 frame max_speed = .sideBySide ↔
      |cum_dist_at d1 frame - cum_dist_at d2 frame| < 1) := by
  have habs : |cum_dist_at d2 frame - cum_dist_at d1 frame| =
      |cum_dist_at d1 frame - cum_dist_at d2 frame| := abs_sub_comm _ _
  have htg := time_gap_at_comm d1 d2 frame max_speed
  constructor
  · unfold gap_message
    by_cases hside : |cum_dist_at d1 frame - cum_dist_at d2 frame| < 1
    · have hside2 : |cum_dist_at d2 frame - cum_dist_at d1 frame| < 1 := by
        rw [habs]; exact hside
      rw [if_pos hside, if_pos hside2]
    · have hside2 : ¬|cum_dist_at d2 frame - cum_dist_at d1 frame| < 1 := by
        rw [habs]; exact hside
      rw [if_neg hside, if_neg hside2]
      by_cases hpos : cum_dist_at d1 frame - cum_dist_at d2 frame > 0
      · have hneg2 : ¬(cum_dist_at d2 frame - cum_dist_at d1 frame > 0) := by
          simp only [gt_iff_lt, not_lt]; linarith
        rw [if_pos hpos, if_neg hneg2, htg]
      · have hne : cum_dist_at d1 frame - cum_dist_at d2 frame ≠ 0 := by
          intro h0
          exact hside (by rw [h0]; norm_num)
        have hlt : cum_dist_at d1 frame - cum_dist_at d2 frame < 0 :=
          lt_of_le_of_ne (not_lt.mp hpos) hne
        have hpos2 : cum_dist_at d2 frame - cum_dist_at d1 frame > 0 := by
          simp only [gt_iff_lt]; linarith
        rw [if_neg hpos, if_pos hpos2, htg]
  · unfold gap_message
    by_cases hside : |cum_dist_at d1 frame - cum_dist_at d2 frame| < 1
    · simp [hside]
    · rw [if_neg hside]
      split_ifs <;> simp [hside]

end F1
